import Mathlib

/-!
Verification of passwall-server, `internal/api/system.go`.

A shallow embedding of the handlers of `internal/api/system.go`
(`Import`, `Export`, `Restore`, `MigrateTables`, `upload`) together with the
parts of the Go standard library they call (`path/filepath`, `encoding/base64`,
`net/http` multipart forms), and theorems about them.

Go strings are byte strings. They are modelled as lists of characters; the
only bytes the code inspects (`/` and `.`) are ASCII. Byte slices are lists of
naturals. Effects (store calls, file system, log) are recorded in an explicit
`World`; capabilities that live outside this file (encryption, JSON decoding,
the store) are fields of an `Env`.
-/

namespace Passwall

/-- A Go `string`. -/
abbrev GoString := List Char

/-- A Go `[]byte`. -/
abbrev Bytes := List Nat

/-! ## `path/filepath` (Unix) -/

namespace filepath

/-- The value of `filepath.Separator`. -/
def Separator : Char := '/'

/-- The function `os.IsPathSeparator`. -/
def IsPathSeparator (c : Char) : Bool := c == Separator

/-- The loop of `filepath.Ext`: `for i := len(path)-1; i >= 0 && !IsPathSeparator(path[i]); i--`,
with the argument `i + 1` counting down. -/
def extLoop (path : GoString) : Nat → GoString
  | 0 => []
  | i + 1 =>
    if IsPathSeparator (path.getD i Separator) then []
    else if path.getD i Separator = '.' then path.drop i
    else extLoop path i

/-- The function `filepath.Ext`: the suffix beginning at the final dot in the final
element of `path`; empty if there is no dot. -/
def Ext (path : GoString) : GoString := extLoop path path.length

/-- The inner loop of the `..` case of `Clean`, after `out.w--`:
`for out.w > dotdot && !IsPathSeparator(out.index(out.w)) { out.w-- }`.
Takes the buffer and the current `w`, gives the final `w`. -/
def backtrack (buf : GoString) (dotdot : Nat) : Nat → Nat
  | 0 => 0
  | w + 1 =>
    if w + 1 > dotdot && !IsPathSeparator (buf.getD (w + 1) Separator) then backtrack buf dotdot w
    else w + 1

/-- The main loop `for r < n` of `filepath.Clean`. The buffer `out` holds the
bytes written so far (`out.w = out.length`). Every iteration advances `r` by at least
one, so `n` iterations suffice; the first argument bounds them. -/
def cleanLoop (path : GoString) (rooted : Bool) : Nat → Nat → GoString → Nat → GoString
  | 0, _, out, _ => out
  | fuel + 1, r, out, dotdot =>
    let n := path.length
    let byteAt (i : Nat) : Char := path.getD i Separator
    if r < n then
      if IsPathSeparator (byteAt r) then
        -- empty path element
        cleanLoop path rooted fuel (r + 1) out dotdot
      else if byteAt r = '.' && (r + 1 == n || IsPathSeparator (byteAt (r + 1))) then
        -- . element
        cleanLoop path rooted fuel (r + 1) out dotdot
      else if byteAt r = '.' && byteAt (r + 1) = '.' && (r + 2 == n || IsPathSeparator (byteAt (r + 2))) then
        -- .. element: remove to last separator
        if out.length > dotdot then
          cleanLoop path rooted fuel (r + 2) (out.take (backtrack out dotdot (out.length - 1))) dotdot
        else if !rooted then
          let out1 := if out.length > 0 then out ++ [Separator] else out
          let out2 := out1 ++ ['.', '.']
          cleanLoop path rooted fuel (r + 2) out2 out2.length
        else
          cleanLoop path rooted fuel (r + 2) out dotdot
      else
        -- real path element: add slash if needed, copy element
        let out1 :=
          if (rooted && out.length != 1) || (!rooted && out.length != 0) then out ++ [Separator]
          else out
        let elem := (path.drop r).takeWhile (fun c => !IsPathSeparator c)
        cleanLoop path rooted fuel (r + elem.length) (out1 ++ elem) dotdot
    else out

/-- The function `filepath.Clean` (no volume names on Unix). -/
def Clean (path : GoString) : GoString :=
  if path = [] then ['.']
  else
    let rooted := IsPathSeparator (path.getD 0 Separator)
    let out :=
      if rooted then cleanLoop path rooted path.length 1 [Separator] 1
      else cleanLoop path rooted path.length 0 [] 0
    if out.length = 0 then ['.'] else out

/-- The function `filepath.Join`: the first non-empty element and everything after it
are joined with the separator and cleaned; all-empty gives the empty string. -/
def Join : List GoString → GoString
  | [] => []
  | e :: rest =>
    if e ≠ [] then Clean ([Separator].intercalate (e :: rest))
    else Join rest

end filepath

/-! ## `encoding/base64` -/

namespace base64

/-- The alphabet of `base64.StdEncoding`. -/
def encodeStd : GoString :=
  "ABCDEFGHIJKLMNOPQRSTUVWXYZabcdefghijklmnopqrstuvwxyz0123456789+/".toList

/-- Lookup `enc.encode[i]`. -/
def encode (i : Nat) : Char := encodeStd.getD i '='

/-- The method `base64.StdEncoding.EncodeToString`: three bytes give four characters, a
remainder of one or two bytes is padded with `=`. -/
def EncodeToString : Bytes → GoString
  | [] => []
  | [a] =>
    let val := (a % 256) <<< 16
    [encode (val >>> 18 &&& 0x3F), encode (val >>> 12 &&& 0x3F), '=', '=']
  | [a, b] =>
    let val := (a % 256) <<< 16 ||| (b % 256) <<< 8
    [encode (val >>> 18 &&& 0x3F), encode (val >>> 12 &&& 0x3F), encode (val >>> 6 &&& 0x3F), '=']
  | a :: b :: c :: rest =>
    let val := (a % 256) <<< 16 ||| (b % 256) <<< 8 ||| (c % 256)
    encode (val >>> 18 &&& 0x3F) :: encode (val >>> 12 &&& 0x3F) :: encode (val >>> 6 &&& 0x3F)
      :: encode (val &&& 0x3F) :: EncodeToString rest

end base64

/-! ## `net/http`: status codes and multipart forms -/

namespace http

/-- The constant `http.StatusOK`. -/
def StatusOK : Nat := 200
/-- The constant `http.StatusNotFound`. -/
def StatusNotFound : Nat := 404
/-- The constant `http.StatusUnprocessableEntity`. -/
def StatusUnprocessableEntity : Nat := 422
/-- The constant `http.StatusInternalServerError`. -/
def StatusInternalServerError : Nat := 500

/-- The constant `defaultMaxMemory` of `net/http`: 32 MB. -/
def defaultMaxMemory : Nat := 32 <<< 20

/-- One part of a `multipart/form-data` body: its form name, its file name (empty for a
plain value) and its bytes. -/
structure Part where
  FormName : GoString
  FileName : GoString
  content : GoString
deriving DecidableEq

/-- A `multipart.FileHeader` together with the bytes `Open` gives access to. `tmpfile`
says whether the part was stored on disk instead of in memory. -/
structure FileHeader where
  Filename : GoString
  Size : Nat
  content : GoString
  tmpfile : Bool
deriving DecidableEq

/-- A parsed `multipart.Form`. -/
structure Form where
  Value : List (GoString × GoString)
  File : List (GoString × FileHeader)
deriving DecidableEq

/-- The parts of an `http.Request` the handlers use: whether the content type is
`multipart/form-data`, the parts of the body, the URL query values, and the fields
`Form` and `MultipartForm` that parsing fills in (`none` is Go's `nil`). -/
structure Request where
  multipart : Bool
  parts : List Part
  query : List (GoString × GoString)
  Form : Option (List (GoString × GoString))
  MultipartForm : Option Passwall.http.Form
deriving DecidableEq

/-- The error `multipart.ErrMessageTooLarge`. -/
def ErrMessageTooLarge : GoString := "multipart: message too large".toList
/-- The error `http.ErrNotMultipart`. -/
def ErrNotMultipart : GoString := "request Content-Type isn't multipart/form-data".toList
/-- The error `http.ErrMissingFile`. -/
def ErrMissingFile : GoString := "http: no such file".toList

/-- The loop of `multipart.Reader.ReadForm`. A plain value is kept as a string and
charged to `maxValueBytes`; exceeding that budget is `ErrMessageTooLarge`. A file part
that fits in the remaining `maxMemory` is kept in memory and charged to both budgets;
a larger one is written to a temporary file on disk, whatever its size. -/
def readForm : List Part → Int → Int → Form → Except GoString Form
  | [], _, _, form => .ok form
  | p :: ps, maxMemory, maxValueBytes, form =>
    if p.FormName = [] then readForm ps maxMemory maxValueBytes form
    else if p.FileName = [] then
      if maxValueBytes < (p.content.length : Int) then .error ErrMessageTooLarge
      else
        readForm ps maxMemory (maxValueBytes - p.content.length)
          { form with Value := form.Value ++ [(p.FormName, p.content)] }
    else if (p.content.length : Int) > maxMemory then
      -- too big, write to disk
      readForm ps maxMemory maxValueBytes
        { form with File := form.File ++ [(p.FormName, ⟨p.FileName, p.content.length, p.content, true⟩)] }
    else
      readForm ps (maxMemory - p.content.length) (maxValueBytes - p.content.length)
        { form with File := form.File ++ [(p.FormName, ⟨p.FileName, p.content.length, p.content, false⟩)] }

/-- The method `Request.ParseMultipartForm`: the whole body is parsed; up to `maxMemory`
bytes of its file parts are stored in memory, the remainder on disk. A request that
was parsed before is left as it is. Gives the error (if any) and the updated request. -/
def ParseMultipartForm (maxMemory : Nat) (r : Request) : Option GoString × Request :=
  let r1 : Request := if r.Form.isNone then { r with Form := some r.query } else r
  if r1.MultipartForm.isSome then (none, r1)
  else if !r1.multipart then (some ErrNotMultipart, r1)
  else
    match readForm r1.parts maxMemory ((maxMemory : Int) + (10 <<< 20 : Nat)) ⟨[], []⟩ with
    | .error e => (some e, r1)
    | .ok f => (none, { r1 with Form := some (r1.Form.getD [] ++ f.Value), MultipartForm := some f })

/-- The method `Request.FormValue`: parses the request if needed (errors ignored) and
gives the first value for `key`, or the empty string. -/
def FormValue (key : GoString) (r : Request) : GoString × Request :=
  let r1 := if r.Form.isNone then (ParseMultipartForm defaultMaxMemory r).2 else r
  match (r1.Form.getD []).find? (fun kv => kv.1 = key) with
  | some kv => (kv.2, r1)
  | none => ([], r1)

/-- The method `Request.FormFile`: parses the request if needed and gives the first file
for `key`. -/
def FormFile (key : GoString) (r : Request) : Except GoString FileHeader × Request :=
  let pr : Option GoString × Request :=
    if r.MultipartForm.isNone then ParseMultipartForm defaultMaxMemory r else (none, r)
  match pr.1 with
  | some err => (.error err, pr.2)
  | none =>
    match pr.2.MultipartForm with
    | some f =>
      match f.File.find? (fun kv => kv.1 = key) with
      | some kv => (.ok kv.2, pr.2)
      | none => (.error ErrMissingFile, pr.2)
    | none => (.error ErrMissingFile, pr.2)

end http

/-! ## `model` package: the fields the handlers use -/

/-- The type `model.Login`. -/
structure Login where
  URL : GoString
  Username : GoString
  Password : GoString
deriving DecidableEq

/-- The type `model.LoginDTO`. -/
structure LoginDTO where
  URL : GoString
  Username : GoString
  Password : GoString
deriving DecidableEq

/-- The type `model.RestoreDTO`. -/
structure RestoreDTO where
  Name : GoString
deriving DecidableEq

/-- The type `model.Response`. -/
structure Response where
  Code : Nat
  Status : GoString
  Message : GoString
deriving DecidableEq

/-- What a handler wrote to its `http.ResponseWriter`: a call of `RespondWithError`, a
call of `RespondWithJSON`, or the CSV attachment of `Export` (the rows given to the CSV
writer). -/
inductive Reply where
  | error (code : Nat) (message : GoString)
  | json (code : Nat) (payload : Response)
  | csv (filename : GoString) (rows : List (List GoString))
deriving DecidableEq

/-- The five collections of `storage.Store`. -/
inductive Collection where
  | Logins
  | CreditCards
  | BankAccounts
  | Notes
  | Tokens
deriving DecidableEq

/-- An `*os.File` handle: the name of the file and the read/write offset. -/
structure File where
  name : GoString
  offset : Nat
deriving DecidableEq

/-- The effects of the handlers, oldest first: the collections whose `Migrate` was
invoked, the lines given to `log.Println`, the records given to `s.Logins().Save`,
the `(path, passphrase)` arguments of `app.DecryptFile`, and the files that exist
under `/tmp` with their contents. -/
structure World where
  migrated : List Collection
  log : List GoString
  saved : List Login
  decrypted : List (GoString × GoString)
  files : List (GoString × GoString)
deriving DecidableEq

/-- The world before anything happened. -/
def World.empty : World := ⟨[], [], [], [], []⟩

/-- What the handlers depend on and this file does not define: configuration
(`viper`), the store, the `app` package, JSON decoding and the operating system. -/
structure Env where
  /-- Value of `viper.GetString("backup.folder")`. -/
  backupFolder : GoString
  /-- Value of `viper.GetString("server.passphrase")`. -/
  passphrase : GoString
  /-- The error (if any) of `Migrate()` on a collection. -/
  Migrate : Collection → Option GoString
  /-- The records `s.Find(&logins)` puts in `logins`. -/
  Find : List Login
  /-- Decoding of the request body into a `RestoreDTO`; `none` is a decode error. -/
  Decode : GoString → Option RestoreDTO
  /-- The error (if any) of `os.Open` on a path. -/
  Open : GoString → Option GoString
  /-- The function `app.DecryptFile(path, passphrase)`. -/
  DecryptFile : GoString → GoString → Bytes
  /-- The call `json.Unmarshal(data, &loginDTOs)`: what is left in `loginDTOs`, and the
  error (if any). -/
  Unmarshal : Bytes → List LoginDTO × Option GoString
  /-- The function `app.Encrypt(plaintext, passphrase)`. -/
  Encrypt : GoString → GoString → Bytes
  /-- The function `app.Decrypt` as used on a stored password under a passphrase. -/
  Decrypt : GoString → GoString → GoString
  /-- The name `ioutil.TempFile("/tmp", "passwall-import-*.csv")` picks given the files
  that exist, or its error. -/
  TempFile : List (GoString × GoString) → Except GoString GoString
  /-- The error (if any) of `ioutil.ReadAll` on an uploaded file. -/
  ReadAll : http.FileHeader → Option GoString
  /-- The function `app.InsertValues(s, url, username, password, file)`: the records it
  saved and its error (if any). -/
  InsertValues : GoString → GoString → GoString → GoString → List Login × Option GoString
  /-- The error (if any) the operating system gives when removing an existing file. -/
  Remove : GoString → Option GoString

/-! ## Operating system and `io/ioutil` -/

namespace ioutil

/-- The function `ioutil.TempFile("/tmp", "passwall-import-*.csv")`: creates a new, empty
file under a name that does not exist yet and gives a handle on it. -/
def TempFile (env : Env) (w : World) : Except GoString File × World :=
  match env.TempFile w.files with
  | .error err => (.error err, w)
  | .ok name =>
    if name ∈ w.files.map Prod.fst then (.error ("file exists".toList), w)
    else (.ok ⟨name, 0⟩, { w with files := w.files ++ [(name, [])] })

/-- The function `ioutil.ReadAll` on an uploaded file: all its bytes, or an error. -/
def ReadAll (env : Env) (file : http.FileHeader) : Except GoString GoString :=
  match env.ReadAll file with
  | some err => .error err
  | none => .ok file.content

end ioutil

namespace os

/-- The method `(*os.File).Write`: the bytes are written at the offset of the handle,
which advances. -/
def Write (f : File) (b : GoString) (w : World) : File × World :=
  (⟨f.name, f.offset + b.length⟩,
    { w with files := w.files.map fun e =>
        if e.1 = f.name then (e.1, e.2.take f.offset ++ b ++ e.2.drop (f.offset + b.length)) else e })

/-- The method `(*os.File).Seek(0, 0)`. -/
def Seek0 (f : File) : File := ⟨f.name, 0⟩

/-- The bytes a reader of the handle gets: the contents of the file from the offset on. -/
def contentFrom (f : File) (w : World) : GoString :=
  (((w.files.find? fun e => e.1 = f.name).map Prod.snd).getD []).drop f.offset

/-- The function `os.Remove`: fails if the file does not exist or the operating system
refuses; otherwise the file is gone afterwards. -/
def Remove (env : Env) (name : GoString) (w : World) : Option GoString × World :=
  if name ∉ w.files.map Prod.fst then
    (some ("remove ".toList ++ name ++ ": no such file or directory".toList), w)
  else
    match env.Remove name with
    | some err => (some err, w)
    | none => (none, { w with files := w.files.filter fun e => e.1 ≠ name })

end os

/-! ## `internal/api/system.go` -/

/-- The function `upload`: parses the multipart form, takes the part named `file`,
checks its extension, and copies its bytes to a new temporary file. -/
def upload (env : Env) (r : http.Request) (w : World) : Except GoString File × World :=
  -- Max 10 MB
  let r1 := (http.ParseMultipartForm (10 <<< 20) r).2
  match (http.FormFile "file".toList r1).1 with
  | .error err => (.error err, w)
  | .ok header =>
    let ext := filepath.Ext header.Filename
    if ext ≠ ".csv".toList then
      (.error (ext ++ " unsupported filetype".toList), w)
    else
      match ioutil.TempFile env w with
      | (.error err, w1) => (.error err, w1)
      | (.ok tempFile, w1) =>
        match ioutil.ReadAll env header with
        | .error err => (.error err, w1)
        | .ok fileBytes =>
          let fw := os.Write tempFile fileBytes w1
          (.ok fw.1, fw.2)

/-- The three calls of `r.FormValue` at the start of `Import`: the values of `url`,
`username` and `password`, and the request after them (the first call parses it). -/
def Import.form (r : http.Request) : (GoString × GoString × GoString) × http.Request :=
  let url := http.FormValue "url".toList r
  let username := http.FormValue "username".toList url.2
  let password := http.FormValue "password".toList username.2
  ((url.1, username.1, password.1), password.2)

/-- The handler `Import`. The deferred `uploadedFile.Close()` has no effect on what is
observed here and is left out. -/
def Import (env : Env) (r : http.Request) (w : World) : Reply × World :=
  let form := Import.form r
  let url := form.1.1
  let username := form.1.2.1
  let password := form.1.2.2
  match upload env form.2 w with
  | (.error err, w1) => (.error http.StatusInternalServerError err, w1)
  | (.ok uploadedFile, w1) =>
    -- Go to first line of file
    let uploadedFile := os.Seek0 uploadedFile
    -- Read file content and add logins to db
    let ins := env.InsertValues url username password (os.contentFrom uploadedFile w1)
    let w2 := { w1 with saved := w1.saved ++ ins.1 }
    match ins.2 with
    | some err => (.error http.StatusInternalServerError err, w2)
    | none =>
      -- Delete imported file
      match os.Remove env uploadedFile.name w2 with
      | (some err, w3) => (.error http.StatusInternalServerError err, w3)
      | (none, w3) =>
        (.json http.StatusOK ⟨http.StatusOK, "Success".toList, "Import finished successfully!".toList⟩, w3)

/-- Modelled from the spec: `app.DecryptLoginPasswords` is not in `system.go`; the spec
says export "decrypts each password using the active passphrase", so every record keeps
its place, URL and username and its password is replaced by its decryption. -/
def DecryptLoginPasswords (env : Env) (logins : List Login) : List Login :=
  logins.map fun l => { l with Password := env.Decrypt l.Password env.passphrase }

/-- The row table `content` that `Export` builds: the header, then one row per login,
appended in the order of the loop `for i := range logins`. -/
def Export.content (logins : List Login) : List (List GoString) :=
  logins.foldl (fun content l => content ++ [[l.URL, l.Username, l.Password]])
    ([] ++ [["URL".toList, "Username".toList, "Password".toList]])

/-- The handler `Export`: all logins, passwords decrypted, as a CSV attachment. -/
def Export (env : Env) (w : World) : Reply × World :=
  let logins := env.Find
  let logins := DecryptLoginPasswords env logins
  (.csv "PassWall.csv".toList (Export.content logins), w)

/-- The name `backupFile` of `Restore`: the requested name, with `.bak` appended if it
has no extension. -/
def Restore.backupFile (name : GoString) : GoString :=
  if (filepath.Ext name).length ≤ 0 then name ++ ".bak".toList else name

/-- The path `backupPath` of `Restore`. -/
def Restore.backupPath (backupFolder name : GoString) : GoString :=
  filepath.Join [backupFolder, Restore.backupFile name]

/-- The body of the loop of `Restore`: the DTO becomes a login whose password is the
base64 encoding of the encrypted plaintext, and the login is given to `Save`. -/
def Restore.saveDTO (env : Env) (w : World) (dto : LoginDTO) : World :=
  let login : Login :=
    { URL := dto.URL
      Username := dto.Username
      Password := base64.EncodeToString (env.Encrypt dto.Password env.passphrase) }
  { w with saved := w.saved ++ [login] }

/-- The handler `Restore`, on a request with the given body. -/
def Restore (env : Env) (body : GoString) (w : World) : Reply × World :=
  match env.Decode body with
  | none => (.error http.StatusUnprocessableEntity "Invalid json provided".toList, w)
  | some restoreDTO =>
    let backupPath := Restore.backupPath env.backupFolder restoreDTO.Name
    match env.Open backupPath with
    | some err => (.error http.StatusNotFound err, w)
    | none =>
      let loginsByte := env.DecryptFile backupPath env.passphrase
      let w1 := { w with decrypted := w.decrypted ++ [(backupPath, env.passphrase)] }
      let loginDTOs := (env.Unmarshal loginsByte).1
      let w2 := loginDTOs.foldl (Restore.saveDTO env) w1
      (.json http.StatusOK
        ⟨http.StatusOK, "Success".toList, "Restore from backup completed successfully!".toList⟩, w2)

/-- The call `log.Println(err)`. -/
def logPrintln (err : GoString) (w : World) : World :=
  { w with log := w.log ++ [err] }

/-- One statement `if err := s.X().Migrate(); err != nil { log.Println(err) }`. -/
def migrateStep (env : Env) (c : Collection) (w : World) : World :=
  let w1 := { w with migrated := w.migrated ++ [c] }
  match env.Migrate c with
  | some err => logPrintln err w1
  | none => w1

/-- The function `MigrateTables`. It has no result: only the world changes. -/
def MigrateTables (env : Env) (w : World) : World :=
  let w := migrateStep env .Logins w
  let w := migrateStep env .CreditCards w
  let w := migrateStep env .BankAccounts w
  let w := migrateStep env .Notes w
  let w := migrateStep env .Tokens w
  w

/-- The final element of a path: what follows its last separator. -/
def filepath.finalElement (path : GoString) : GoString :=
  (path.reverse.takeWhile fun c => !filepath.IsPathSeparator c).reverse

/-- A multipart request that was not parsed yet, whose body is one file part named
`file` with the given file name and bytes. -/
def uploadRequest (filename content : GoString) : http.Request :=
  { multipart := true
    parts := [⟨"file".toList, filename, content⟩]
    query := []
    Form := none
    MultipartForm := none }

/-- The environment used for the concrete instances below: backups under `./store`,
every file opens, the cipher appends the passphrase and a zero byte, the JSON decoder
knows one well-formed payload (bytes `[1]`), one array with a bad second element (bytes
`[2]`, decoded as far as possible, with an error) and rejects everything else. -/
def sampleEnv : Env where
  backupFolder := "./store".toList
  passphrase := "secret".toList
  Migrate := fun c => if c = .Notes then some "notes: migration failed".toList else none
  Find := [⟨"a.example".toList, "alice".toList, "c1".toList⟩,
           ⟨"b.example".toList, "bob".toList, "c2".toList⟩]
  Decode := fun body => some ⟨body⟩
  Open := fun _ => none
  DecryptFile := fun path _ =>
    if path = "store/good.bak".toList then [1]
    else if path = "store/mixed.bak".toList then [2]
    else [0]
  Unmarshal := fun data =>
    if data = [1] then
      ([⟨"a.example".toList, "alice".toList, "pw".toList⟩,
        ⟨"b.example".toList, "bob".toList, "hunter2".toList⟩], none)
    else if data = [2] then
      ([⟨"a.example".toList, "alice".toList, "pw".toList⟩, ⟨[], [], []⟩],
        some "json: cannot unmarshal number into Go value of type model.LoginDTO".toList)
    else ([], some "invalid character 'x' looking for beginning of value".toList)
  Encrypt := fun plaintext passphrase => (plaintext ++ passphrase).map Char.toNat ++ [0]
  Decrypt := fun ciphertext _ => ciphertext ++ "!".toList
  TempFile := fun _ => .ok "/tmp/passwall-import-1.csv".toList
  ReadAll := fun _ => none
  InsertValues := fun _ _ _ _ => ([], none)
  Remove := fun _ => none

/-! ## Lemmas -/

theorem migrateStep_migrated (env : Env) (c : Collection) (w : World) :
    (migrateStep env c w).migrated = w.migrated ++ [c] := by
  unfold migrateStep
  cases env.Migrate c <;> simp [logPrintln]

theorem migrateStep_log (env : Env) (c : Collection) (w : World) :
    (migrateStep env c w).log = w.log ++ (env.Migrate c).toList := by
  unfold migrateStep
  cases env.Migrate c <;> simp [logPrintln]

theorem migrateStep_rest (env : Env) (c : Collection) (w : World) :
    (migrateStep env c w).saved = w.saved ∧ (migrateStep env c w).decrypted = w.decrypted
      ∧ (migrateStep env c w).files = w.files := by
  unfold migrateStep
  cases env.Migrate c <;> simp [logPrintln]

theorem takeWhile_notSep_pos (path : GoString) (r : Nat) (hr : r < path.length)
    (h : ¬ filepath.IsPathSeparator (path.getD r filepath.Separator) = true) :
    0 < ((path.drop r).takeWhile fun c => !filepath.IsPathSeparator c).length := by
  rw [List.getD_eq_getElem _ _ hr] at h
  rw [List.drop_eq_getElem_cons hr, List.takeWhile_cons]
  simp [h]

/-- Fuel beyond `path.length - r` does not change the result of `cleanLoop`: the loop
has finished by then. -/
theorem cleanLoop_fuel (path : GoString) (rooted : Bool) (fuel : Nat) :
    ∀ (k r : Nat) (out : GoString) (dotdot : Nat), path.length - r ≤ fuel →
      filepath.cleanLoop path rooted (fuel + k) r out dotdot
        = filepath.cleanLoop path rooted fuel r out dotdot := by
  induction fuel with
  | zero =>
    intro k r out dotdot h
    have hr : ¬ r < path.length := by omega
    cases k with
    | zero => rfl
    | succ k =>
      rw [Nat.zero_add]
      simp only [filepath.cleanLoop, hr, if_false]
  | succ fuel ih =>
    intro k r out dotdot h
    rw [show fuel + 1 + k = (fuel + k) + 1 by omega]
    simp only [filepath.cleanLoop]
    by_cases hr : r < path.length
    · have hpos := takeWhile_notSep_pos path r hr
      simp only [hr, if_true]
      split_ifs with h1 h2 h3 h4 h5 <;> first
        | exact ih _ _ _ _ (by omega)
        | exact ih _ _ _ _ (by have := hpos h1; omega)
    · simp only [hr, if_false]

/-- The loop of `Clean` run with `path.length` iterations has finished: more iterations
give the same result. -/
theorem cleanLoop_total (path : GoString) (rooted : Bool) (k r : Nat) (out : GoString)
    (dotdot : Nat) :
    filepath.cleanLoop path rooted (path.length + k) r out dotdot
      = filepath.cleanLoop path rooted path.length r out dotdot :=
  cleanLoop_fuel path rooted path.length k r out dotdot (Nat.sub_le _ _)


theorem extLoop_append (p s : GoString) (i : Nat) (hi : i ≤ p.length) :
    filepath.extLoop (p ++ s) i
      = if filepath.extLoop p i = [] then [] else filepath.extLoop p i ++ s := by
  induction i with
  | zero => simp [filepath.extLoop]
  | succ i ih =>
    have hlt : i < p.length := hi
    have hd : List.drop i p ≠ [] := by
      intro h
      rw [List.drop_eq_nil_iff] at h
      omega
    simp only [filepath.extLoop]
    rw [List.getD_append _ _ _ _ hlt, List.drop_append_of_le_length (Nat.le_of_lt hlt)]
    by_cases h1 : filepath.IsPathSeparator (p.getD i filepath.Separator) = true
    · rw [if_pos h1, if_pos h1, if_pos rfl]
    · rw [if_neg h1, if_neg h1]
      by_cases h2 : p.getD i filepath.Separator = '.'
      · rw [if_pos h2, if_pos h2, if_neg hd]
      · rw [if_neg h2, if_neg h2]
        exact ih (Nat.le_of_lt hlt)

theorem Ext_append_singleton (p : GoString) (c : Char) :
    filepath.Ext (p ++ [c])
      = if filepath.IsPathSeparator c then []
        else if c = '.' then [c]
        else if filepath.Ext p = [] then [] else filepath.Ext p ++ [c] := by
  unfold filepath.Ext
  rw [List.length_append, List.length_singleton, filepath.extLoop]
  rw [List.getD_append_right _ _ _ _ (Nat.le_refl _), Nat.sub_self, List.getD_cons_zero,
    List.drop_left, extLoop_append p [c] p.length (Nat.le_refl _)]

theorem finalElement_append_singleton (p : GoString) (c : Char) :
    filepath.finalElement (p ++ [c])
      = if filepath.IsPathSeparator c then [] else filepath.finalElement p ++ [c] := by
  unfold filepath.finalElement
  rw [List.reverse_append, List.reverse_singleton, List.singleton_append, List.takeWhile_cons]
  by_cases h : filepath.IsPathSeparator c = true <;> simp [h]

theorem Ext_eq_nil_iff (path : GoString) :
    filepath.Ext path = [] ↔ ∀ c ∈ filepath.finalElement path, c ≠ '.' := by
  induction path using List.reverseRecOn with
  | nil => simp [filepath.Ext, filepath.extLoop, filepath.finalElement]
  | append_singleton p c ih =>
    rw [Ext_append_singleton, finalElement_append_singleton]
    by_cases h1 : filepath.IsPathSeparator c = true
    · simp [h1]
    · rw [if_neg h1, if_neg h1]
      by_cases h2 : c = '.'
      · rw [if_pos h2]
        constructor
        · intro h; simp at h
        · intro h
          exact absurd h2 (h c (List.mem_append_right _ (List.mem_singleton.mpr rfl)))
      · rw [if_neg h2]
        by_cases h3 : filepath.Ext p = []
        · rw [if_pos h3]
          have hp := ih.mp h3
          refine ⟨fun _ d hd => ?_, fun _ => rfl⟩
          rcases List.mem_append.mp hd with hd | hd
          · exact hp d hd
          · rw [List.mem_singleton.mp hd]; exact h2
        · rw [if_neg h3]
          constructor
          · intro h; simp at h
          · intro h
            exact absurd (ih.mpr fun d hd => h d (List.mem_append_left _ hd)) h3

theorem Ext_append_bak (name : GoString) :
    filepath.Ext (name ++ ".bak".toList) = ".bak".toList := by
  have h : name ++ ".bak".toList = (((name ++ ['.']) ++ ['b']) ++ ['a']) ++ ['k'] := by
    simp
  rw [h, Ext_append_singleton, Ext_append_singleton, Ext_append_singleton, Ext_append_singleton]
  simp [filepath.IsPathSeparator, filepath.Separator]
theorem Export_content_foldl (logins : List Login) (acc : List (List GoString)) :
    logins.foldl (fun content l => content ++ [[l.URL, l.Username, l.Password]]) acc
      = acc ++ logins.map fun l => [l.URL, l.Username, l.Password] := by
  induction logins generalizing acc with
  | nil => simp
  | cons l ls ih => simp [ih]

theorem Export_content_eq (logins : List Login) :
    Export.content logins
      = ["URL".toList, "Username".toList, "Password".toList]
        :: logins.map fun l => [l.URL, l.Username, l.Password] := by
  simp [Export.content, Export_content_foldl]

theorem saveDTO_foldl (env : Env) (dtos : List LoginDTO) (w : World) :
    dtos.foldl (Restore.saveDTO env) w
      = { w with saved := w.saved ++ dtos.map fun d =>
            (⟨d.URL, d.Username,
              base64.EncodeToString (env.Encrypt d.Password env.passphrase)⟩ : Login) } := by
  induction dtos generalizing w with
  | nil => simp
  | cons d ds ih => simp [ih, Restore.saveDTO]

theorem EncodeToString_length (b : Bytes) :
    (base64.EncodeToString b).length = 4 * ((b.length + 2) / 3) := by
  induction b using base64.EncodeToString.induct with
  | case1 => simp [base64.EncodeToString]
  | case2 a => simp [base64.EncodeToString]
  | case3 a b => simp [base64.EncodeToString]
  | case4 a b c rest ih =>
    simp only [base64.EncodeToString, List.length_cons, ih]
    omega

theorem Restore_opened (env : Env) (body : GoString) (w : World) (dto : RestoreDTO)
    (hd : env.Decode body = some dto)
    (ho : env.Open (Restore.backupPath env.backupFolder dto.Name) = none) :
    Restore env body w
      = (.json 200 ⟨200, "Success".toList, "Restore from backup completed successfully!".toList⟩,
         { w with
            decrypted := w.decrypted ++ [(Restore.backupPath env.backupFolder dto.Name, env.passphrase)]
            saved := w.saved ++
              (env.Unmarshal (env.DecryptFile (Restore.backupPath env.backupFolder dto.Name)
                  env.passphrase)).1.map fun d =>
                (⟨d.URL, d.Username,
                  base64.EncodeToString (env.Encrypt d.Password env.passphrase)⟩ : Login) }) := by
  simp [Restore, hd, ho, saveDTO_foldl, http.StatusOK]

theorem FormFile_uploadRequest (filename content : GoString) (hn : filename ≠ []) :
    (http.FormFile "file".toList
        (http.ParseMultipartForm (10 <<< 20) (uploadRequest filename content)).2).1
      = .ok ⟨filename, content.length, content, decide (10 <<< 20 < content.length)⟩ := by
  have e : (10 <<< 20 : Nat) = 10485760 := by decide
  rw [e]
  by_cases h : (10485760 : Nat) < content.length
  · simp [http.FormFile, http.ParseMultipartForm, uploadRequest, http.readForm, hn, h]
  · simp [http.FormFile, http.ParseMultipartForm, uploadRequest, http.readForm, hn, h]

theorem upload_sampleEnv_csv (filename content : GoString) (hn : filename ≠ [])
    (hx : filepath.Ext filename = ".csv".toList) :
    upload sampleEnv (uploadRequest filename content) World.empty
      = (.ok ⟨"/tmp/passwall-import-1.csv".toList, content.length⟩,
         { World.empty with files := [("/tmp/passwall-import-1.csv".toList, content)] }) := by
  have hf := FormFile_uploadRequest filename content hn
  unfold upload
  simp only [hf, hx]
  simp [ioutil.TempFile, ioutil.ReadAll, os.Write, sampleEnv, World.empty]

theorem os_Remove_ok (env : Env) (name : GoString) (w : World)
    (h : (os.Remove env name w).1 = none) :
    name ∈ w.files.map Prod.fst ∧ name ∉ (os.Remove env name w).2.files.map Prod.fst := by
  unfold os.Remove at h ⊢
  by_cases hm : name ∈ w.files.map Prod.fst
  · refine ⟨hm, ?_⟩
    rw [if_neg (not_not.mpr hm)] at h ⊢
    cases hr : env.Remove name with
    | some err => simp [hr] at h
    | none =>
      simp only [hr]
      intro hin
      obtain ⟨e, he, hne⟩ := List.mem_map.mp hin
      have := (List.mem_filter.mp he).2
      simp [hne] at this
  · rw [if_pos hm] at h
    simp at h

theorem Import_upload_error (env : Env) (r : http.Request) (w w1 : World) (err : GoString)
    (hu : upload env (Import.form r).2 w = (.error err, w1)) :
    Import env r w = (.error 500 err, w1) := by
  unfold Import
  simp only [hu]
  rfl

theorem Import_insert_error (env : Env) (r : http.Request) (w w1 : World) (f : File)
    (err : GoString) (hu : upload env (Import.form r).2 w = (.ok f, w1))
    (hi : (env.InsertValues (Import.form r).1.1 (Import.form r).1.2.1 (Import.form r).1.2.2
            (os.contentFrom (os.Seek0 f) w1)).2 = some err) :
    (Import env r w).1 = .error 500 err := by
  unfold Import
  simp only [hu, hi]
  rfl

theorem Import_inserted (env : Env) (r : http.Request) (w w1 : World) (f : File)
    (hu : upload env (Import.form r).2 w = (.ok f, w1))
    (hi : (env.InsertValues (Import.form r).1.1 (Import.form r).1.2.1 (Import.form r).1.2.2
            (os.contentFrom (os.Seek0 f) w1)).2 = none) :
    Import env r w
      = match os.Remove env f.name
            { w1 with saved := w1.saved ++
                (env.InsertValues (Import.form r).1.1 (Import.form r).1.2.1 (Import.form r).1.2.2
                  (os.contentFrom (os.Seek0 f) w1)).1 } with
        | (some err, w3) => (.error 500 err, w3)
        | (none, w3) =>
          (.json 200 ⟨200, "Success".toList, "Import finished successfully!".toList⟩, w3) := by
  unfold Import
  simp only [hu, hi]
  rfl

/-! ## Theorems -/

/-- C1: `MigrateTables` invokes `Migrate` exactly once on each of the five collections,
in the order logins, credit cards, bank accounts, notes, tokens, whatever subset of the
invocations fails; the failures are logged in that order, and nothing else changes.
The function has no error result. -/
theorem MigrateTables_invokes_all (env : Env) (w : World) :
    (MigrateTables env w).migrated
        = w.migrated ++ [.Logins, .CreditCards, .BankAccounts, .Notes, .Tokens]
      ∧ (MigrateTables env w).log
        = w.log ++ [Collection.Logins, .CreditCards, .BankAccounts, .Notes, .Tokens].filterMap env.Migrate
      ∧ (MigrateTables env w).saved = w.saved
      ∧ (MigrateTables env w).files = w.files := by
  refine ⟨?_, ?_, ?_, ?_⟩
  · simp [MigrateTables, migrateStep_migrated]
  · simp only [MigrateTables, migrateStep_log, List.filterMap_cons, List.filterMap_nil]
    cases env.Migrate .Logins <;> cases env.Migrate .CreditCards <;>
      cases env.Migrate .BankAccounts <;> cases env.Migrate .Notes <;>
      cases env.Migrate .Tokens <;> simp
  · simp [MigrateTables, migrateStep_rest]
  · simp [MigrateTables, migrateStep_rest]

/-- C4: a requested name whose final path element contains no `.` (which is exactly when
`filepath.Ext` is empty) and the same name with `.bak` appended resolve to the same path,
the join of the backup folder with `name ++ ".bak"`; a name with a non-empty extension
is used unchanged. -/
theorem Restore_backupPath_normalises (backupFolder name : GoString) :
    (filepath.Ext name = [] ↔ ∀ c ∈ filepath.finalElement name, c ≠ '.')
      ∧ ((∀ c ∈ filepath.finalElement name, c ≠ '.') →
          Restore.backupPath backupFolder name
              = filepath.Join [backupFolder, name ++ ".bak".toList]
            ∧ Restore.backupPath backupFolder (name ++ ".bak".toList)
              = filepath.Join [backupFolder, name ++ ".bak".toList])
      ∧ (filepath.Ext name ≠ [] →
          Restore.backupFile name = name
            ∧ Restore.backupPath backupFolder name = filepath.Join [backupFolder, name]) := by
  refine ⟨Ext_eq_nil_iff name, fun h => ?_, fun h => ?_⟩
  · have h0 : filepath.Ext name = [] := (Ext_eq_nil_iff name).mpr h
    constructor
    · simp [Restore.backupPath, Restore.backupFile, h0]
    · simp only [Restore.backupPath, Restore.backupFile, Ext_append_bak]
      rfl
  · have hf : Restore.backupFile name = name := by
      unfold Restore.backupFile
      rw [if_neg]
      intro hl
      exact h (List.length_eq_zero.mp (Nat.le_zero.mp hl))
    exact ⟨hf, by rw [Restore.backupPath, hf]⟩

/-- C4, instance: `mybackup` and `mybackup.bak` both resolve to `store/mybackup.bak` under
the folder `./store`, and `old.tar` is used as it is. -/
theorem Restore_backupPath_normalises_witness :
    (∀ c ∈ filepath.finalElement "mybackup".toList, c ≠ '.')
      ∧ filepath.Ext "old.tar".toList ≠ []
      ∧ Restore.backupPath "./store".toList "mybackup".toList = "store/mybackup.bak".toList
      ∧ Restore.backupPath "./store".toList "mybackup.bak".toList = "store/mybackup.bak".toList
      ∧ Restore.backupFile "old.tar".toList = "old.tar".toList :=
  have h1 : ∀ c ∈ filepath.finalElement "mybackup".toList, c ≠ '.' := by decide
  have h2 : filepath.Ext "old.tar".toList ≠ [] := by decide
  have hj : filepath.Join ["./store".toList, "mybackup".toList ++ ".bak".toList]
      = "store/mybackup.bak".toList := by decide
  ⟨h1, h2,
    (((Restore_backupPath_normalises "./store".toList "mybackup".toList).2.1 h1).1).trans hj,
    by decide,
    ((Restore_backupPath_normalises "./store".toList "old.tar".toList).2.2 h2).1⟩

/-- C6: if the backup file cannot be opened, `Restore` answers 404 with the message of
the open error and leaves the world as it was: `app.DecryptFile` is not called and
nothing is saved. -/
theorem Restore_open_error (env : Env) (body : GoString) (w : World) (dto : RestoreDTO)
    (err : GoString) (hd : env.Decode body = some dto)
    (ho : env.Open (Restore.backupPath env.backupFolder dto.Name) = some err) :
    Restore env body w = (.error 404 err, w)
      ∧ (Restore env body w).2.decrypted = w.decrypted
      ∧ (Restore env body w).2.saved = w.saved := by
  have h : Restore env body w = (.error 404 err, w) := by
    simp [Restore, hd, ho, http.StatusNotFound]
  simp [h]

/-- C6, instance: with no file `store/gone.bak`, restoring `gone` answers 404 and the
world stays empty. -/
theorem Restore_open_error_witness :
    Restore { sampleEnv with Open := fun _ => some "open store/gone.bak: no such file or directory".toList }
        "gone".toList World.empty
      = (.error 404 "open store/gone.bak: no such file or directory".toList, World.empty) :=
  (Restore_open_error
    { sampleEnv with Open := fun _ => some "open store/gone.bak: no such file or directory".toList }
    "gone".toList World.empty ⟨"gone".toList⟩
    "open store/gone.bak: no such file or directory".toList rfl rfl).1

/-- C2 (the code does not keep the path inside the backup folder): a requested name with
`..` elements resolves outside the folder. Under `./store` the name `../../etc/passwd`
gives `../etc/passwd.bak`, under `/srv/passwall/store` the name `../../../etc/passwd`
gives `/etc/passwd.bak`, and that path is what `Restore` hands to `app.DecryptFile`. -/
theorem Restore_backupPath_escapes :
    Restore.backupPath "./store".toList "../../etc/passwd".toList = "../etc/passwd.bak".toList
      ∧ ¬ ("store/".toList <+: Restore.backupPath "./store".toList "../../etc/passwd".toList)
      ∧ Restore.backupPath "/srv/passwall/store".toList "../../../etc/passwd".toList
          = "/etc/passwd.bak".toList
      ∧ ¬ ("/srv/passwall/store/".toList
            <+: Restore.backupPath "/srv/passwall/store".toList "../../../etc/passwd".toList)
      ∧ (Restore sampleEnv "../../etc/passwd".toList World.empty).2.decrypted
          = [("../etc/passwd.bak".toList, "secret".toList)] := by
  refine ⟨by decide, by decide, by decide, by decide, by decide⟩

/-- C3 (the code ignores the error of `json.Unmarshal`): once the backup file opens,
`Restore` answers 200 "Success" whatever the decoder reports, and saves one record for
every element the decoder left in the slice. -/
theorem Restore_ignores_unmarshal_error (env : Env) (body : GoString) (w : World)
    (dto : RestoreDTO) (hd : env.Decode body = some dto)
    (ho : env.Open (Restore.backupPath env.backupFolder dto.Name) = none) :
    (Restore env body w).1
        = .json 200 ⟨200, "Success".toList, "Restore from backup completed successfully!".toList⟩
      ∧ (Restore env body w).2.saved.length
        = w.saved.length
          + (env.Unmarshal (env.DecryptFile (Restore.backupPath env.backupFolder dto.Name)
              env.passphrase)).1.length := by
  rw [Restore_opened env body w dto hd ho]
  simp

/-- C3, instances: a backup that decrypts to garbage is answered with success (and nothing
is saved); a backup whose array has a bad second element is answered with success and
two records are saved. -/
theorem Restore_ignores_unmarshal_error_witness :
    (sampleEnv.Unmarshal (sampleEnv.DecryptFile "store/garbage.bak".toList "secret".toList)).2 ≠ none
      ∧ (Restore sampleEnv "garbage".toList World.empty).1
          = .json 200 ⟨200, "Success".toList, "Restore from backup completed successfully!".toList⟩
      ∧ (sampleEnv.Unmarshal (sampleEnv.DecryptFile "store/mixed.bak".toList "secret".toList)).2 ≠ none
      ∧ (Restore sampleEnv "mixed".toList World.empty).1
          = .json 200 ⟨200, "Success".toList, "Restore from backup completed successfully!".toList⟩
      ∧ (Restore sampleEnv "mixed".toList World.empty).2.saved.length = 2 :=
  ⟨by decide,
    (Restore_ignores_unmarshal_error sampleEnv "garbage".toList World.empty ⟨"garbage".toList⟩
      rfl rfl).1,
    by decide,
    (Restore_ignores_unmarshal_error sampleEnv "mixed".toList World.empty ⟨"mixed".toList⟩
      rfl rfl).1,
    by decide⟩

/-- C5: when the backup file opens and its decrypted contents decode without error to
the DTOs `d_1..d_n`, `Restore` gives exactly `n` records to `Save`, in that order, the
`i`-th with the URL and username of `d_i` and the password
`base64(Encrypt(d_i.password, passphrase))`. If the cipher's output is longer than its
input (as that of an authenticated cipher is), no saved password equals the plaintext
password of its DTO. -/
theorem Restore_saves_encrypted (env : Env) (body : GoString) (w : World) (dto : RestoreDTO)
    (dtos : List LoginDTO) (hd : env.Decode body = some dto)
    (ho : env.Open (Restore.backupPath env.backupFolder dto.Name) = none)
    (hu : env.Unmarshal (env.DecryptFile (Restore.backupPath env.backupFolder dto.Name)
        env.passphrase) = (dtos, none)) :
    (Restore env body w).2.saved
        = w.saved ++ dtos.map (fun d =>
            (⟨d.URL, d.Username,
              base64.EncodeToString (env.Encrypt d.Password env.passphrase)⟩ : Login))
      ∧ (Restore env body w).2.saved.length = w.saved.length + dtos.length
      ∧ ((∀ p : GoString, p.length < (env.Encrypt p env.passphrase).length) →
          ∀ d ∈ dtos, base64.EncodeToString (env.Encrypt d.Password env.passphrase) ≠ d.Password) := by
  rw [Restore_opened env body w dto hd ho, hu]
  refine ⟨rfl, by simp, fun hlen d _ heq => ?_⟩
  have h1 := congrArg List.length heq
  rw [EncodeToString_length] at h1
  have h2 := hlen d.Password
  omega

/-- C5, instance: restoring `good` saves the two records of the backup, in order, with
base64 ciphertext passwords that differ from the plaintexts `pw` and `hunter2`. -/
theorem Restore_saves_encrypted_witness :
    (Restore sampleEnv "good".toList World.empty).2.saved
        = [⟨"a.example".toList, "alice".toList, "cHdzZWNyZXQA".toList⟩,
           ⟨"b.example".toList, "bob".toList, "aHVudGVyMnNlY3JldAA=".toList⟩]
      ∧ "cHdzZWNyZXQA".toList ≠ "pw".toList
      ∧ "aHVudGVyMnNlY3JldAA=".toList ≠ "hunter2".toList :=
  have h := Restore_saves_encrypted sampleEnv "good".toList World.empty ⟨"good".toList⟩
    [⟨"a.example".toList, "alice".toList, "pw".toList⟩,
      ⟨"b.example".toList, "bob".toList, "hunter2".toList⟩] rfl rfl (by decide)
  ⟨h.1.trans (by decide), by decide, by decide⟩

/-- C9: the table `Export` gives to the CSV writer has one row more than there are
records in the store; its first row is the header `URL, Username, Password`; row `i + 1`
holds the URL, the username and the decrypted password of record `i`; every row has
three columns. -/
theorem Export_rows (env : Env) (w : World) :
    Export env w
        = (.csv "PassWall.csv".toList (Export.content (DecryptLoginPasswords env env.Find)), w)
      ∧ Export.content (DecryptLoginPasswords env env.Find)
        = ["URL".toList, "Username".toList, "Password".toList]
          :: env.Find.map (fun l => [l.URL, l.Username, env.Decrypt l.Password env.passphrase])
      ∧ (Export.content (DecryptLoginPasswords env env.Find)).length = env.Find.length + 1
      ∧ (Export.content (DecryptLoginPasswords env env.Find))[0]?
        = some ["URL".toList, "Username".toList, "Password".toList]
      ∧ (∀ (i : Nat) (l : Login), env.Find[i]? = some l →
          (Export.content (DecryptLoginPasswords env env.Find))[i + 1]?
            = some [l.URL, l.Username, env.Decrypt l.Password env.passphrase])
      ∧ ∀ row ∈ Export.content (DecryptLoginPasswords env env.Find), row.length = 3 := by
  have h : Export.content (DecryptLoginPasswords env env.Find)
      = ["URL".toList, "Username".toList, "Password".toList]
        :: env.Find.map fun l => [l.URL, l.Username, env.Decrypt l.Password env.passphrase] := by
    simp [Export_content_eq, DecryptLoginPasswords, List.map_map, Function.comp_def]
  refine ⟨rfl, h, ?_, ?_, ?_, ?_⟩
  · simp [h]
  · simp [h]
  · intro i l hl
    simp [h, List.getElem?_map, hl]
  · intro row hrow
    rw [h] at hrow
    rcases List.mem_cons.mp hrow with hrow | hrow
    · rw [hrow]; rfl
    · obtain ⟨l, _, hl⟩ := List.mem_map.mp hrow
      rw [← hl]; rfl

/-- C9, instance: with two records in the store the table has three rows, and the row
after the header is the first record with its password decrypted. -/
theorem Export_rows_witness :
    (Export.content (DecryptLoginPasswords sampleEnv sampleEnv.Find)).length = 3
      ∧ (Export.content (DecryptLoginPasswords sampleEnv sampleEnv.Find))[0 + 1]?
          = some ["a.example".toList, "alice".toList, "c1!".toList] :=
  ⟨(Export_rows sampleEnv World.empty).2.2.1,
    (Export_rows sampleEnv World.empty).2.2.2.2.1 0
      ⟨"a.example".toList, "alice".toList, "c1".toList⟩ rfl⟩

/-- C7 (the code has no size limit): a multipart request whose only part is an 11 MiB
file named `big.csv` is accepted. `upload` returns a handle and no error, and the
temporary file exists afterwards with all 11534336 bytes; the `10 << 20` given to
`ParseMultipartForm` only decides that the part is kept on disk instead of in memory. -/
theorem upload_accepts_over_limit :
    10 <<< 20 < (List.replicate (11 <<< 20) 'a').length
      ∧ (http.FormFile "file".toList
            (http.ParseMultipartForm (10 <<< 20)
              (uploadRequest "big.csv".toList (List.replicate (11 <<< 20) 'a'))).2).1
          = .ok ⟨"big.csv".toList, (List.replicate (11 <<< 20) 'a').length,
              List.replicate (11 <<< 20) 'a', true⟩
      ∧ upload sampleEnv (uploadRequest "big.csv".toList (List.replicate (11 <<< 20) 'a'))
            World.empty
          = (.ok ⟨"/tmp/passwall-import-1.csv".toList, (List.replicate (11 <<< 20) 'a').length⟩,
             { World.empty with
                files := [("/tmp/passwall-import-1.csv".toList, List.replicate (11 <<< 20) 'a')] }) := by
  have hlen : 10 <<< 20 < (List.replicate (11 <<< 20) 'a').length := by
    rw [List.length_replicate]
    decide
  refine ⟨hlen, ?_, ?_⟩
  · rw [FormFile_uploadRequest "big.csv".toList _ (by decide), decide_eq_true hlen]
  · exact upload_sampleEnv_csv "big.csv".toList _ (by decide) (by decide)

/-- C8: when the request has a part named `file`, `upload` looks at the extension of
its file name. If the extension is not exactly `.csv`, the result is an error whose
message is the extension followed by ` unsupported filetype`, there is no handle, and
the world is unchanged (no temporary file). If it is `.csv`, `upload` goes on to create
the temporary file and copy the bytes, and fails only if one of those steps fails. -/
theorem upload_extension_check (env : Env) (r : http.Request) (w : World)
    (header : http.FileHeader)
    (hf : (http.FormFile "file".toList (http.ParseMultipartForm (10 <<< 20) r).2).1
        = .ok header) :
    (filepath.Ext header.Filename ≠ ".csv".toList →
        upload env r w
          = (.error (filepath.Ext header.Filename ++ " unsupported filetype".toList), w))
      ∧ (filepath.Ext header.Filename = ".csv".toList →
        upload env r w
          = match ioutil.TempFile env w with
            | (.error err, w1) => (.error err, w1)
            | (.ok tempFile, w1) =>
              match ioutil.ReadAll env header with
              | .error err => (.error err, w1)
              | .ok fileBytes =>
                ((.ok (os.Write tempFile fileBytes w1).1, (os.Write tempFile fileBytes w1).2))) := by
  constructor
  · intro hx
    unfold upload
    simp only [hf]
    rw [if_pos hx]
  · intro hx
    unfold upload
    simp only [hf]
    rw [if_neg (not_not.mpr hx)]

/-- C8, instances: `x.txt`, `x` and `x.CSV` are rejected with the messages
`.txt unsupported filetype`, ` unsupported filetype` and `.CSV unsupported filetype`, and
no file is created; `x.csv` is accepted. -/
theorem upload_extension_check_witness :
    upload sampleEnv (uploadRequest "x.txt".toList "a,b,c".toList) World.empty
        = (.error ".txt unsupported filetype".toList, World.empty)
      ∧ upload sampleEnv (uploadRequest "x".toList "a,b,c".toList) World.empty
        = (.error " unsupported filetype".toList, World.empty)
      ∧ upload sampleEnv (uploadRequest "x.CSV".toList "a,b,c".toList) World.empty
        = (.error ".CSV unsupported filetype".toList, World.empty)
      ∧ upload sampleEnv (uploadRequest "x.csv".toList "a,b,c".toList) World.empty
        = (.ok ⟨"/tmp/passwall-import-1.csv".toList, 5⟩,
            { World.empty with files := [("/tmp/passwall-import-1.csv".toList, "a,b,c".toList)] }) :=
  ⟨(upload_extension_check sampleEnv (uploadRequest "x.txt".toList "a,b,c".toList) World.empty
      ⟨"x.txt".toList, 5, "a,b,c".toList, false⟩ rfl).1 (by decide),
    (upload_extension_check sampleEnv (uploadRequest "x".toList "a,b,c".toList) World.empty
      ⟨"x".toList, 5, "a,b,c".toList, false⟩ rfl).1 (by decide),
    (upload_extension_check sampleEnv (uploadRequest "x.CSV".toList "a,b,c".toList) World.empty
      ⟨"x.CSV".toList, 5, "a,b,c".toList, false⟩ rfl).1 (by decide),
    ((upload_extension_check sampleEnv (uploadRequest "x.csv".toList "a,b,c".toList) World.empty
      ⟨"x.csv".toList, 5, "a,b,c".toList, false⟩ rfl).2 (by decide)).trans rfl⟩

/-- C10: `Import` answers with the success response only if `upload` gave a file,
`InsertValues` gave no error and `os.Remove` of that file gave no error, and then the
file, which existed after the upload, is no longer among the files. If `upload`,
`InsertValues` or the removal fails, the answer is an error with status 500 and the
message of that failure. -/
theorem Import_success_removes (env : Env) (r : http.Request) (w : World) :
    ((Import env r w).1
        = .json 200 ⟨200, "Success".toList, "Import finished successfully!".toList⟩ →
      ∃ f w1, upload env (Import.form r).2 w = (.ok f, w1)
        ∧ (env.InsertValues (Import.form r).1.1 (Import.form r).1.2.1 (Import.form r).1.2.2
            (os.contentFrom (os.Seek0 f) w1)).2 = none
        ∧ f.name ∈ w1.files.map Prod.fst
        ∧ f.name ∉ (Import env r w).2.files.map Prod.fst)
      ∧ (∀ err w1, upload env (Import.form r).2 w = (.error err, w1) →
          (Import env r w).1 = .error 500 err)
      ∧ (∀ f w1 err, upload env (Import.form r).2 w = (.ok f, w1) →
          (env.InsertValues (Import.form r).1.1 (Import.form r).1.2.1 (Import.form r).1.2.2
            (os.contentFrom (os.Seek0 f) w1)).2 = some err →
          (Import env r w).1 = .error 500 err)
      ∧ (∀ f w1 err, upload env (Import.form r).2 w = (.ok f, w1) →
          (env.InsertValues (Import.form r).1.1 (Import.form r).1.2.1 (Import.form r).1.2.2
            (os.contentFrom (os.Seek0 f) w1)).2 = none →
          (os.Remove env f.name
            { w1 with saved := w1.saved ++
                (env.InsertValues (Import.form r).1.1 (Import.form r).1.2.1 (Import.form r).1.2.2
                  (os.contentFrom (os.Seek0 f) w1)).1 }).1 = some err →
          (Import env r w).1 = .error 500 err) := by
  refine ⟨?_, ?_, ?_, ?_⟩
  · intro hs
    rcases hu : upload env (Import.form r).2 w with ⟨res, w1⟩
    cases res with
    | error err =>
      rw [Import_upload_error env r w w1 err hu] at hs
      exact absurd hs (by simp)
    | ok f =>
      refine ⟨f, w1, rfl, ?_⟩
      cases hi : (env.InsertValues (Import.form r).1.1 (Import.form r).1.2.1
          (Import.form r).1.2.2 (os.contentFrom (os.Seek0 f) w1)).2 with
      | some err =>
        rw [Import_insert_error env r w w1 f err hu hi] at hs
        exact absurd hs (by simp)
      | none =>
        refine ⟨rfl, ?_⟩
        rw [Import_inserted env r w w1 f hu hi] at hs ⊢
        rcases hr : os.Remove env f.name
            { w1 with saved := w1.saved ++
                (env.InsertValues (Import.form r).1.1 (Import.form r).1.2.1
                  (Import.form r).1.2.2 (os.contentFrom (os.Seek0 f) w1)).1 } with ⟨e, w3⟩
        cases e with
        | some err =>
          rw [hr] at hs
          exact absurd hs (by simp)
        | none =>
          have hok := os_Remove_ok env f.name _ (by rw [hr])
          rw [hr] at hok
          exact hok
  · intro err w1 hu
    rw [Import_upload_error env r w w1 err hu]
  · intro f w1 err hu hi
    exact Import_insert_error env r w w1 f err hu hi
  · intro f w1 err hu hi hr
    rw [Import_inserted env r w w1 f hu hi]
    rcases hr2 : os.Remove env f.name
        { w1 with saved := w1.saved ++
            (env.InsertValues (Import.form r).1.1 (Import.form r).1.2.1
              (Import.form r).1.2.2 (os.contentFrom (os.Seek0 f) w1)).1 } with ⟨e, w3⟩
    rw [hr2] at hr
    simp only at hr
    subst hr
    rfl

/-- C10, instance: importing `x.csv` answers success and leaves no file behind; when the
removal is refused, the answer is the 500 error of the removal. -/
theorem Import_success_removes_witness :
    Import sampleEnv (uploadRequest "x.csv".toList "a,b,c".toList) World.empty
        = (.json 200 ⟨200, "Success".toList, "Import finished successfully!".toList⟩, World.empty)
      ∧ (∃ f w1, upload sampleEnv (Import.form (uploadRequest "x.csv".toList "a,b,c".toList)).2
            World.empty = (.ok f, w1)
          ∧ f.name ∈ w1.files.map Prod.fst
          ∧ f.name ∉ (Import sampleEnv (uploadRequest "x.csv".toList "a,b,c".toList)
              World.empty).2.files.map Prod.fst)
      ∧ (Import { sampleEnv with Remove := fun _ => some "operation not permitted".toList }
            (uploadRequest "x.csv".toList "a,b,c".toList) World.empty).1
          = .error 500 "operation not permitted".toList
      ∧ (Import sampleEnv (uploadRequest "x.txt".toList "a,b,c".toList) World.empty).1
          = .error 500 ".txt unsupported filetype".toList :=
  ⟨by decide,
    (match (Import_success_removes sampleEnv (uploadRequest "x.csv".toList "a,b,c".toList)
        World.empty).1 (by decide) with
      | ⟨f, w1, hu, _, hin, hout⟩ => ⟨f, w1, hu, hin, hout⟩),
    (Import_success_removes { sampleEnv with Remove := fun _ => some "operation not permitted".toList }
      (uploadRequest "x.csv".toList "a,b,c".toList) World.empty).2.2.2
      ⟨"/tmp/passwall-import-1.csv".toList, 5⟩
      { World.empty with files := [("/tmp/passwall-import-1.csv".toList, "a,b,c".toList)] }
      "operation not permitted".toList rfl rfl rfl,
    (Import_success_removes sampleEnv (uploadRequest "x.txt".toList "a,b,c".toList)
      World.empty).2.1 ".txt unsupported filetype".toList World.empty rfl⟩

end Passwall
